import Mathlib

/-!
Verification of the rg-profiler Container Lifecycle & Measurement Orchestrator.

This file gives a shallow embedding of the orchestrator's core routines
(`src/docker/container_operations.py`, `src/docker/container_manager.py`,
`src/energy_manager.py`, `src/wrk_manager.py`, `src/runners/wrk_runner.py`,
`src/runners/wrk_manager.py`, `src/profiler.py`) and proves properties of
the embedded definitions.  Effectful calls against the Docker runtime are
modelled by oracles (functions giving the runtime's answer to the i-th
call), and the functions return, besides their result, a trace of the
runtime calls they performed.
-/

namespace RgProfiler

/-- Profiling modes, from `src/constants.py` (MODE_PROFILE, MODE_ENERGY,
MODE_STANDARD, MODE_QUICK). -/
inductive Mode
  | profile
  | energy
  | standard
  | quick
deriving DecidableEq, Repr

/-! ## Retry wrapper (`with_retry`, src/docker/container_operations.py lines 19-75)

The Python decorator runs `while attempt <= max_attempts`: on every
iteration after the first it sleeps the current wait time and multiplies it
by the backoff factor, then invokes the operation; an exception increments
`attempt`, success returns immediately.  When the loop falls through, the
last error (if any) is re-raised.

The model takes the operation as `op : Nat → Except E A`, giving the
outcome of the attempt with that (1-based) number.  It returns the number
of invocations of the operation, the list of sleep durations in order, and
the final outcome (`none` models falling through with no recorded error,
which happens only when `max_attempts = 0`). -/

def retryGo {E A : Type} (op : Nat → Except E A) (backoffFactor : Nat) :
    Nat → Nat → Nat → Option E → Nat × List Nat × Option (Except E A)
  | 0, _, _, last => (0, [], last.map Except.error)
  | fuel + 1, wait, attempt, _ =>
    let pre : List Nat := if 1 < attempt then [wait] else []
    let wait' : Nat := if 1 < attempt then wait * backoffFactor else wait
    match op attempt with
    | Except.ok a => (1, pre, some (Except.ok a))
    | Except.error e =>
      let r := retryGo op backoffFactor fuel wait' (attempt + 1) (some e)
      (r.1 + 1, pre ++ r.2.1, r.2.2)

/-- Model of the `with_retry` wrapper: defaults in the source are
`max_attempts = 3`, `backoff_factor = 2`, `initial_wait = 1`, all
overridable from `config["retry"]`. -/
def with_retry {E A : Type} (op : Nat → Except E A)
    (maxAttempts initialWait backoffFactor : Nat) :
    Nat × List Nat × Option (Except E A) :=
  retryGo op backoffFactor maxAttempts initialWait 1 none

/-! ## Docker runtime call traces

A single event type records the calls the container-manager routines make
against the Docker runtime, so theorems can state which calls were (not)
performed and in which order. -/

inductive DockerCall
  | sendShutdown
  | inspect (i : Nat)
  | sleep (sec : Nat)
  | getContainer
  | runC
  | stopC (timeout : Nat)
  | removeC
  | fatalExit
deriving DecidableEq, Repr

/-! ## Graceful shutdown (`ContainerManager.shutdown_framework`,
src/docker/container_manager.py lines 320-367)

After `send_server_shutdown`, the source loops `for i in range(10)`: it
fetches the container; if its status is not `"running"` or the container
no longer exists (`docker.errors.NotFound`) it returns True; otherwise it
sleeps 1 second and retries.  After 10 failed iterations it calls
`stop_container` (stop with the configured timeout, default 10, then
remove) and returns False.

The runtime's answer to the i-th status poll is the oracle
`insp : Nat → Option String` (`none` models `NotFound`). -/

def stoppedAt (insp : Nat → Option String) (i : Nat) : Bool :=
  match insp i with
  | some s => s != "running"
  | none => true

def shutdownPoll (insp : Nat → Option String) : Nat → Nat → Bool × List DockerCall
  | _, 0 => (false, [])
  | i, fuel + 1 =>
    if stoppedAt insp i then (true, [DockerCall.inspect i])
    else
      let r := shutdownPoll insp (i + 1) fuel
      (r.1, DockerCall.inspect i :: DockerCall.sleep 1 :: r.2)

/-- Model of `ContainerManager.shutdown_framework`: the grace loop is
hard-coded to 10 one-second iterations; on timeout the container is
forcibly stopped (with the config stop timeout, default 10) and removed. -/
def shutdown_framework (insp : Nat → Option String) (stopTimeout : Nat) :
    Bool × List DockerCall :=
  let r := shutdownPoll insp 0 10
  if r.1 then (true, DockerCall.sendShutdown :: r.2)
  else
    (false, DockerCall.sendShutdown :: r.2 ++
      [DockerCall.stopC stopTimeout, DockerCall.removeC])

/-- Trace of `len` status polls starting at index `i`, each followed by a
1-second sleep. -/
def pollTrace (i len : Nat) : List DockerCall :=
  (List.range' i len).flatMap (fun j => [DockerCall.inspect j, DockerCall.sleep 1])

/-! ## Stop-if-exists (`ContainerManager.stop_container_if_exists`,
src/docker/container_manager.py lines 186-215)

The source looks up the container by name; `docker.errors.NotFound`
returns False, any other error is fatal (`sys.exit(1)`); otherwise it
stops the container with the configured `stop_timeout` (default 5), then
removes it, and returns True.  The whole body sits inside one `try`, so a
`NotFound` raised by stop/remove also returns False and any other error
raised by them is also fatal.  Oracles give the outcome of each runtime
call. -/

inductive DErr
  | notFound
  | other
deriving DecidableEq, Repr

def stop_container_if_exists (lookupRes stopRes removeRes : Except DErr Unit)
    (cfgStopTimeout : Option Nat) : Except Unit Bool × List DockerCall :=
  let stop_timeout := cfgStopTimeout.getD 5
  match lookupRes with
  | Except.error DErr.notFound => (Except.ok false, [DockerCall.getContainer])
  | Except.error DErr.other => (Except.error (), [DockerCall.getContainer])
  | Except.ok _ =>
    match stopRes with
    | Except.error DErr.notFound =>
      (Except.ok false, [DockerCall.getContainer, DockerCall.stopC stop_timeout])
    | Except.error DErr.other =>
      (Except.error (), [DockerCall.getContainer, DockerCall.stopC stop_timeout])
    | Except.ok _ =>
      match removeRes with
      | Except.error DErr.notFound =>
        (Except.ok false,
          [DockerCall.getContainer, DockerCall.stopC stop_timeout, DockerCall.removeC])
      | Except.error DErr.other =>
        (Except.error (),
          [DockerCall.getContainer, DockerCall.stopC stop_timeout, DockerCall.removeC])
      | Except.ok _ =>
        (Except.ok true,
          [DockerCall.getContainer, DockerCall.stopC stop_timeout, DockerCall.removeC])

/-! ## Readiness probe (`ContainerManager.wait_for_container_ready`,
src/docker/container_manager.py lines 251-318, and
`ContainerOperations.check_server_health`, container_operations.py 184-231)

After a fixed warm-up sleep the source loops while
`time.time() - start_time < timeout`: it fetches the container; a status
other than `"running"` returns False immediately; otherwise
`check_server_health` curls the endpoint inside the container and any
non-empty stripped response is healthy (True); otherwise it sleeps
`check_interval` and retries.  Exceptions inside the loop (e.g. the
container lookup raising `NotFound`) are caught, followed by a sleep and a
retry; `check_server_health` catches its own exceptions and returns False,
so the probe itself never raises.  On timeout the function returns False.

In the model, time advances only by the interval sleeps, so the loop
condition before the i-th poll is `i * interval < timeout`.  The oracles
give the i-th status lookup (`none` = the lookup raised) and the i-th
health-check outcome (non-empty response).  The result is the returned
Boolean paired with the number of polls performed. -/

def waitReadyGo (status : Nat → Option String) (health : Nat → Bool)
    (timeout interval : Nat) : Nat → Nat → Nat → Bool × Nat
  | 0, _, i => (false, i)
  | fuel + 1, elapsed, i =>
    if elapsed < timeout then
      match status i with
      | some s =>
        if s == "running" then
          if health i then (true, i + 1)
          else waitReadyGo status health timeout interval fuel (elapsed + interval) (i + 1)
        else (false, i + 1)
      | none => waitReadyGo status health timeout interval fuel (elapsed + interval) (i + 1)
    else (false, i)

/-- Model of `wait_for_container_ready`: the fuel `timeout + 1` bounds the
number of iterations, which is sufficient whenever `1 ≤ interval` since
every iteration advances elapsed time by `interval`. -/
def wait_for_container_ready (status : Nat → Option String) (health : Nat → Bool)
    (timeout interval : Nat) : Bool × Nat :=
  waitReadyGo status health timeout interval (timeout + 1) 0 0

/-! ## Container creation cleanup (`ContainerManager.run_container`,
src/docker/container_manager.py lines 115-184)

After starting the container detached, the source waits for readiness via
`wait_for_container_ready`; on success it returns the container id, and on
failure it first calls `stop_container` (stop with the configured timeout,
then remove) and only then reports the fatal startup failure
(`sys.exit(1)`).  The model returns the result, the final state of the
started container (`none` = stopped and removed), and the call trace. -/

def run_container (status : Nat → Option String) (health : Nat → Bool)
    (timeout interval stopTimeout : Nat) :
    Except Unit Unit × Option String × List DockerCall :=
  let ready := wait_for_container_ready status health timeout interval
  if ready.1 then (Except.ok (), some "running", [DockerCall.runC])
  else
    (Except.error (), none,
      [DockerCall.runC, DockerCall.stopC stopTimeout, DockerCall.removeC,
        DockerCall.fatalExit])

/-! ## Test selection per mode (`Profiler.get_tests_for_mode`,
src/profiler.py lines 29-53)

The source reads `config.get("tests", [])` (the `endpoints` branch of the
source is an empty placeholder), returns `[tests[0]]` when the mode is
quick and the list is non-empty, and otherwise returns the list as is. -/

def get_tests_for_mode {α : Type} (tests : List α) (mode : Mode) : List α :=
  match mode, tests with
  | Mode.quick, t :: _ => [t]
  | _, ts => ts

/-! ## Load-test script resolution

Three independently evolved resolvers exist in the source:
- `WrkManager.get_script_path` (src/wrk_manager.py lines 22-68), used by
  the main profiler and the energy manager: exact name, then name with
  `.lua` appended, then the mode directory's `basic.lua`, then
  `FileNotFoundError`;
- `get_wrk_script_path` (src/runners/wrk_runner.py lines 12-54): exact
  name, then name with `.lua` appended, then `None` — no default script
  fallback at all (it also returns `None` when the mode directory itself
  is missing);
- `get_wrk_script_path` (src/runners/wrk_manager.py lines 176-223), used
  by src/runners/benchmark.py: exact name, name with `.lua` appended, the
  mode directory's `basic.lua`, then — with a warning — `basic.lua` from
  another mode directory (searching "profile", "standard", "energy" and
  skipping the current mode), then `None`.

The filesystem is the oracle `fs dir file = true` iff `wrk/<dir>/<file>`
exists.  `endsWithLua` models Python's `script_name.endswith(".lua")`. -/

def endsWithLua (s : String) : Bool := ".lua".toList.isSuffixOf s.toList

/-- Mode subdirectory mapping shared by all three resolvers (`mode_dirs`
in src/wrk_manager.py, the if/elif chain in src/runners/wrk_runner.py, and
`mode.lower()` in src/runners/wrk_manager.py). -/
def modeDir : Mode → String
  | Mode.energy => "energy"
  | Mode.profile => "profile"
  | Mode.quick => "quick"
  | Mode.standard => "standard"

namespace WrkMgr

/-- Model of `WrkManager.get_script_path` (src/wrk_manager.py).  `none`
models the raised `FileNotFoundError`. -/
def get_script_path (fs : String → String → Bool) (script_name : String)
    (mode : Mode) : Option (String × String) :=
  let wrk_dir := modeDir mode
  if fs wrk_dir script_name then some (wrk_dir, script_name)
  else if !endsWithLua script_name && fs wrk_dir (script_name ++ ".lua") then
    some (wrk_dir, script_name ++ ".lua")
  else if fs wrk_dir "basic.lua" then some (wrk_dir, "basic.lua")
  else none

end WrkMgr

namespace WrkRunner

/-- Model of `get_wrk_script_path` (src/runners/wrk_runner.py); the extra
oracle `dirOf` tells whether the mode directory exists. -/
def get_wrk_script_path (dirOf : String → Bool) (fs : String → String → Bool)
    (script_name : String) (mode : Mode) : Option (String × String) :=
  let wrk_dir := modeDir mode
  if !dirOf wrk_dir then none
  else if fs wrk_dir script_name then some (wrk_dir, script_name)
  else if !endsWithLua script_name && fs wrk_dir (script_name ++ ".lua") then
    some (wrk_dir, script_name ++ ".lua")
  else none

end WrkRunner

namespace RunnersWrkMgr

/-- The last-resort loop of src/runners/wrk_manager.py: try `basic.lua`
from each of the directories "profile", "standard", "energy", skipping the
current mode's own directory. -/
def fallbackSearch (fs : String → String → Bool) (skip : String) :
    List String → Option (String × String)
  | [] => none
  | d :: ds =>
    if d = skip then fallbackSearch fs skip ds
    else if fs d "basic.lua" then some (d, "basic.lua")
    else fallbackSearch fs skip ds

/-- Result of the src/runners/wrk_manager.py resolver: the chosen path and
whether the cross-mode-fallback warning was printed. -/
structure ResolveOut where
  path : Option (String × String)
  warnedCross : Bool
deriving DecidableEq, Repr

/-- Model of `get_wrk_script_path` (src/runners/wrk_manager.py). -/
def get_wrk_script_path (fs : String → String → Bool) (script_name : String)
    (mode : Mode) : ResolveOut :=
  let mode_dir := modeDir mode
  if fs mode_dir script_name then ⟨some (mode_dir, script_name), false⟩
  else if !endsWithLua script_name && fs mode_dir (script_name ++ ".lua") then
    ⟨some (mode_dir, script_name ++ ".lua"), false⟩
  else if fs mode_dir "basic.lua" then ⟨some (mode_dir, "basic.lua"), false⟩
  else
    match fallbackSearch fs mode_dir ["profile", "standard", "energy"] with
    | some p => ⟨some p, true⟩
    | none => ⟨none, false⟩

end RunnersWrkMgr

namespace SpecModel

/-- Modelled from the spec: the documented fallback chain of §4.6 — exact
name in the mode's directory, then the name with the `.lua` extension
added, then the mode's generic default script `basic.lua`, then another
mode's default script, and only then failure.  The order in which the
other modes are tried is not fixed by the spec; this definition uses the
source order "profile", "standard", "energy". -/
def specFallbackChain (fs : String → String → Bool) (script_name : String)
    (mode : Mode) : Option (String × String) :=
  let dir := modeDir mode
  if fs dir script_name then some (dir, script_name)
  else if !endsWithLua script_name && fs dir (script_name ++ ".lua") then
    some (dir, script_name ++ ".lua")
  else if fs dir "basic.lua" then some (dir, "basic.lua")
  else RunnersWrkMgr.fallbackSearch fs dir ["profile", "standard", "energy"]

end SpecModel

/-- A filesystem with only `wrk/standard/basic.lua` present. -/
def fsOnlyStandardBasic : String → String → Bool :=
  fun d f => d == "standard" && f == "basic.lua"

/-! ## Energy-run artifact wait (`EnergyManager._save_energy_run_data`,
src/energy_manager.py lines 110-219)

After sending the shutdown signal the source polls `for i in range(30)`
(`max_wait_time = 30`): if `/output/energy/emissions.csv` exists and its
size exceeds 100 bytes it breaks; otherwise, when `i % 5 == 0` or
`i == max_wait_time - 1`, it logs the energy directory contents, then
sleeps 1 second.  After the loop it reads the file: an empty content or
one with at most one newline (header-only) is an error — no report is
written and False is returned; otherwise the emissions are copied out,
parsed and an `energy.json` report is written.

The oracles `ex` and `sz` give the existence check and size of the
artifact at the i-th poll; `content` is what `cat` returns after the
loop. -/

def goodAt (ex : Nat → Bool) (sz : Nat → Nat) (i : Nat) : Bool :=
  ex i && decide (100 < sz i)

def waitForEmissions (ex : Nat → Bool) (sz : Nat → Nat) (maxWait : Nat) :
    Nat → Nat → Option Nat × List Nat × Nat
  | _, 0 => (none, [], 0)
  | i, fuel + 1 =>
    if goodAt ex sz i then (some i, [], 0)
    else
      let r := waitForEmissions ex sz maxWait (i + 1) fuel
      (r.1, if i % 5 == 0 || i == maxWait - 1 then i :: r.2.1 else r.2.1,
        r.2.2 + 1)

def newlineCount (s : String) : Nat := s.toList.count '\n'

/-- Outcome of one `_save_energy_run_data` call: whether a report was
produced (`report` is the parsed artifact content, `none` when the run is
reported as failed), at which poll the wait loop broke (`none` = timed
out after 30 polls), at which polls the directory contents were logged,
and how many 1-second sleeps happened. -/
structure SaveRunOutcome where
  savedReport : Bool
  report : Option String
  waitBroke : Option Nat
  dirLogs : List Nat
  sleeps : Nat
deriving DecidableEq, Repr

def save_energy_run_data (ex : Nat → Bool) (sz : Nat → Nat)
    (content : String) : SaveRunOutcome :=
  let r := waitForEmissions ex sz 30 0 30
  if content = "" ∨ newlineCount content ≤ 1 then
    ⟨false, none, r.1, r.2.1, r.2.2⟩
  else ⟨true, some content, r.1, r.2.1, r.2.2⟩

/-! ## Statistics aggregation (`EnergyManager.combine_energy_runs`,
src/energy_manager.py lines 437-620)

The source exits fatally when the runs directory is missing, when any
expected `runs/run_<i>/energy.json` is missing or unreadable, or when the
collected run list is empty.  It then gathers, for each of the report
sections `energy`, `emissions` and `duration`, every key (except
`"units"`) present in at least one run, and for each key the list of
values from the runs that have it, in run order, computing
`values, mean, median, stddev (np.std = population standard deviation),
min, max` and `coefficient_of_variation = stddev/mean*100 if mean > 0
else 0`.  All per-key statistics land in one dict, later sections
overwriting earlier ones on key collision (energy, then emissions, then
duration).

Values are embedded as rationals.  The population standard deviation is
the square root of the (rational) population variance, so the statistics
record stores the variance and `stddev` / `cov` are derived real-valued
functions. -/

def listMin : List ℚ → ℚ
  | [] => 0
  | [x] => x
  | x :: y :: t => min x (listMin (y :: t))

def listMax : List ℚ → ℚ
  | [] => 0
  | [x] => x
  | x :: y :: t => max x (listMax (y :: t))

def npMean (l : List ℚ) : ℚ := l.sum / l.length

def insertSorted (x : ℚ) : List ℚ → List ℚ
  | [] => [x]
  | y :: ys => if x ≤ y then x :: y :: ys else y :: insertSorted x ys

def sortQ : List ℚ → List ℚ
  | [] => []
  | x :: xs => insertSorted x (sortQ xs)

/-- NumPy median: middle element of the sorted list, or the average of
the two middle elements for an even length. -/
def npMedian (l : List ℚ) : ℚ :=
  let s := sortQ l
  let n := s.length
  if n % 2 = 1 then s.getD (n / 2) 0
  else (s.getD (n / 2 - 1) 0 + s.getD (n / 2) 0) / 2

/-- Population variance, the square of `np.std` with the default
`ddof = 0`. -/
def npVariance (l : List ℚ) : ℚ :=
  ((l.map (fun x => (x - npMean l) ^ 2)).sum) / l.length

/-- Per-metric statistics record of `combine_energy_runs`. -/
structure MetricStat where
  values : List ℚ
  mean : ℚ
  median : ℚ
  variance : ℚ
  min : ℚ
  max : ℚ
deriving DecidableEq, Repr

/-- The `stddev` entry: `np.std(values)`, the population standard
deviation. -/
noncomputable def MetricStat.stddev (s : MetricStat) : ℝ :=
  Real.sqrt (s.variance : ℝ)

/-- The `coefficient_of_variation` entry:
`np.std(values) / np.mean(values) * 100 if np.mean(values) > 0 else 0`. -/
noncomputable def MetricStat.cov (s : MetricStat) : ℝ :=
  if 0 < s.mean then s.stddev / (s.mean : ℝ) * 100 else 0

def statFor (vs : List ℚ) : MetricStat :=
  ⟨vs, npMean vs, npMedian vs, npVariance vs, listMin vs, listMax vs⟩

/-- One per-run `energy.json` report, with its three metric sections as
association lists. -/
structure RunReport where
  framework : String
  language : String
  energy : List (String × ℚ)
  emissions : List (String × ℚ)
  duration : List (String × ℚ)
deriving DecidableEq, Repr

/-- The per-key value list: `[r[section][key] for r in run_data if key in
r[section]]`, in run order. -/
def metricValues (runs : List RunReport)
    (proj : RunReport → List (String × ℚ)) (key : String) : List ℚ :=
  runs.filterMap (fun r => (proj r).lookup key)

/-- Keys of one section over all runs, except `"units"`. -/
def sectionKeys (runs : List RunReport)
    (proj : RunReport → List (String × ℚ)) : List String :=
  ((runs.flatMap (fun r => (proj r).map Prod.fst)).filter
    (fun k => k != "units")).dedup

/-- The statistics entry for one key of one section: skipped (`none`)
when no run has the key (`if values:` in the source). -/
def statOpt (runs : List RunReport) (proj : RunReport → List (String × ℚ))
    (key : String) : Option MetricStat :=
  let values := metricValues runs proj key
  if values.isEmpty then none else some (statFor values)

def sectionStats (runs : List RunReport)
    (proj : RunReport → List (String × ℚ)) : List (String × MetricStat) :=
  (sectionKeys runs proj).filterMap
    (fun k => (statOpt runs proj k).map (fun s => (k, s)))

/-- The three metric sections of a report whose statistics
`combine_energy_runs` computes, in processing order: energy first, then
emissions, then duration (later sections overwrite earlier ones on key
collision in the shared statistics dict). -/
inductive ReportSection
  | energy
  | emissions
  | duration
deriving DecidableEq, Repr

def sectionProj : ReportSection → RunReport → List (String × ℚ)
  | ReportSection.energy => fun r => r.energy
  | ReportSection.emissions => fun r => r.emissions
  | ReportSection.duration => fun r => r.duration

/-- The combined `energy_runs.json` payload (the parts the claims are
about).  `statistics` is the final per-key dict: energy keys are written
first, then emissions, then duration, later writes overwriting earlier
ones, hence the lookup priority duration, emissions, energy. -/
structure CombinedStats where
  runs : Nat
  framework : String
  language : String
  statistics : String → Option MetricStat

/-- Collect `runs/run_<i>/energy.json` for `i` in an ascending range;
`none` as soon as one file is missing (the source exits fatally there). -/
def collectFrom (files : Nat → Option RunReport) : Nat → Nat → Option (List RunReport)
  | _, 0 => some []
  | i, n + 1 =>
    match files i with
    | none => none
    | some r => (collectFrom files (i + 1) n).map (fun l => r :: l)

/-- Model of `EnergyManager.combine_energy_runs`: `Except.error ()` is a
fatal `sys.exit(1)`. -/
def combine_energy_runs (runsDirOk : Bool) (files : Nat → Option RunReport)
    (num_runs : Nat) : Except Unit CombinedStats :=
  if !runsDirOk then Except.error ()
  else
    match collectFrom files 1 num_runs with
    | none => Except.error ()
    | some [] => Except.error ()
    | some (r0 :: rest) =>
      Except.ok
        { runs := (r0 :: rest).length
          framework := r0.framework
          language := r0.language
          statistics := fun k =>
            ((sectionStats (r0 :: rest) (fun r => r.duration)).lookup k <|>
              (sectionStats (r0 :: rest) (fun r => r.emissions)).lookup k) <|>
              (sectionStats (r0 :: rest) (fun r => r.energy)).lookup k }

/-! ## Theorems -/

theorem retryGo_allFail {E A : Type} (op : Nat → Except E A) (e : Nat → E)
    (hop : ∀ i, op i = Except.error (e i)) (b : Nat) :
    ∀ (fuel a w : Nat) (last : Option E), 2 ≤ a →
      retryGo op b fuel w a last =
        (fuel, (List.range fuel).map (fun j => w * b ^ j),
          if fuel = 0 then last.map Except.error
          else some (Except.error (e (a + fuel - 1)))) := by
  intro fuel
  induction fuel with
  | zero => intro a w last _; simp [retryGo]
  | succ f ih =>
    intro a w last ha
    have hpre : (if 1 < a then [w] else []) = [w] := by
      rw [if_pos (by omega)]
    have hw : (if 1 < a then w * b else w) = w * b := by
      rw [if_pos (by omega)]
    simp only [retryGo, hop a, hpre, hw]
    rw [ih (a + 1) (w * b) (some (e a)) (by omega)]
    refine congrArg₂ Prod.mk rfl (congrArg₂ Prod.mk ?_ ?_)
    · rw [List.range_succ_eq_map, List.map_cons, List.map_map]
      refine congrArg₂ List.cons (by ring) ?_
      refine List.map_congr_left (fun j _ => ?_)
      simp [Function.comp, pow_succ]
      ring
    · rcases Nat.eq_zero_or_pos f with hf | hf
      · subst hf; simp
      · rw [if_neg (by omega), if_neg (by omega)]
        have : a + 1 + f - 1 = a + (f + 1) - 1 := by omega
        rw [this]

/-- C3: for an operation that fails on every attempt and `maxAttempts = k ≥ 1`,
the retry wrapper invokes the operation exactly `k` times, sleeps
`initialWait * backoffFactor ^ (attempt - 1)` after the failure of each
attempt `attempt < k` (i.e. the sleep list is
`[w * b^0, w * b^1, ..., w * b^(k-2)]`), and finally re-raises the error of
the last (k-th) attempt. -/
theorem with_retry_exhaustion {E A : Type} (op : Nat → Except E A) (e : Nat → E)
    (k w b : Nat) (hop : ∀ i, op i = Except.error (e i)) (hk : 1 ≤ k) :
    with_retry op k w b =
      (k, (List.range (k - 1)).map (fun j => w * b ^ j),
        some (Except.error (e k))) := by
  obtain ⟨k', rfl⟩ : ∃ k', k = k' + 1 := ⟨k - 1, by omega⟩
  unfold with_retry
  simp only [retryGo, hop 1]
  rw [if_neg (by omega), if_neg (by omega)]
  rw [retryGo_allFail op e hop b k' (1 + 1) w (some (e 1)) (by omega)]
  rcases Nat.eq_zero_or_pos k' with hk' | hk'
  · subst hk'; simp
  · rw [if_neg (by omega)]
    simp only [List.nil_append, Nat.add_sub_cancel]
    refine congrArg₂ Prod.mk rfl (congrArg₂ Prod.mk rfl ?_)
    have : 1 + 1 + k' - 1 = k' + 1 := by omega
    rw [this]

/-- Witness for `with_retry_exhaustion`: an always-failing operation with
`maxAttempts = 3`, `initialWait = 1`, `backoffFactor = 2` is invoked 3
times, sleeps 1s then 2s, and re-raises the error of attempt 3. -/
theorem with_retry_exhaustion_witness :
    with_retry (fun i => (Except.error i : Except Nat Unit)) 3 1 2 =
      (3, (List.range 2).map (fun j => 1 * 2 ^ j), some (Except.error 3)) :=
  with_retry_exhaustion (fun i => Except.error i) (fun i => i) 3 1 2
    (fun _ => rfl) (by omega)

theorem shutdownPoll_none (insp : Nat → Option String) :
    ∀ (fuel i : Nat), (∀ j, j < fuel → stoppedAt insp (i + j) = false) →
      shutdownPoll insp i fuel = (false, pollTrace i fuel) := by
  intro fuel
  induction fuel with
  | zero => intro i _; simp [shutdownPoll, pollTrace]
  | succ f ih =>
    intro i h
    have h0 : stoppedAt insp i = false := by simpa using h 0 (by omega)
    have htail : ∀ j, j < f → stoppedAt insp (i + 1 + j) = false := by
      intro j hj
      have := h (j + 1) (by omega)
      simpa [Nat.add_assoc, Nat.add_comm 1 j] using this
    simp only [shutdownPoll, h0, Bool.false_eq_true, if_false, ih (i + 1) htail]
    simp [pollTrace, List.range'_succ]

theorem shutdownPoll_found (insp : Nat → Option String) :
    ∀ (k fuel i : Nat), k < fuel → stoppedAt insp (i + k) = true →
      (∀ j, j < k → stoppedAt insp (i + j) = false) →
      shutdownPoll insp i fuel =
        (true, pollTrace i k ++ [DockerCall.inspect (i + k)]) := by
  intro k
  induction k with
  | zero =>
    intro fuel i hf hk _
    obtain ⟨f, rfl⟩ : ∃ f, fuel = f + 1 := ⟨fuel - 1, by omega⟩
    simp only [Nat.add_zero] at hk
    simp [shutdownPoll, hk, pollTrace]
  | succ k ih =>
    intro fuel i hf hk h
    obtain ⟨f, rfl⟩ : ∃ f, fuel = f + 1 := ⟨fuel - 1, by omega⟩
    have h0 : stoppedAt insp i = false := by simpa using h 0 (by omega)
    have hk' : stoppedAt insp (i + 1 + k) = true := by
      simpa [Nat.add_assoc, Nat.add_comm 1 k] using hk
    have htail : ∀ j, j < k → stoppedAt insp (i + 1 + j) = false := by
      intro j hj
      have := h (j + 1) (by omega)
      simpa [Nat.add_assoc, Nat.add_comm 1 j] using this
    simp only [shutdownPoll, h0, Bool.false_eq_true, if_false,
      ih f (i + 1) (by omega) hk' htail]
    simp [pollTrace, List.range'_succ, Nat.add_assoc, Nat.add_comm 1 k]

/-- C1: after the in-band terminate signal, `shutdown_framework` polls the
container status once per second for up to 10 iterations.  If every one of
the 10 polls still reports a running container, it forcibly stops (bounded
timeout) and removes the container and returns false.  If poll `k < 10` is
the first to report a non-`running` status or a vanished container, it
returns true right there, having performed exactly `k + 1` polls and no
stop/remove call. -/
theorem shutdown_framework_spec (insp : Nat → Option String) (t : Nat) :
    ((∀ j, j < 10 → stoppedAt insp j = false) →
      shutdown_framework insp t =
        (false, DockerCall.sendShutdown :: pollTrace 0 10 ++
          [DockerCall.stopC t, DockerCall.removeC])) ∧
    (∀ k, k < 10 → stoppedAt insp k = true →
      (∀ j, j < k → stoppedAt insp j = false) →
      shutdown_framework insp t =
        (true, DockerCall.sendShutdown ::
          (pollTrace 0 k ++ [DockerCall.inspect k]))) := by
  constructor
  · intro h
    have := shutdownPoll_none insp 10 0 (by intro j hj; simpa using h j hj)
    simp [shutdown_framework, this]
  · intro k hk hstop hbefore
    have := shutdownPoll_found insp k 10 0 hk (by simpa using hstop)
      (by intro j hj; simpa using hbefore j hj)
    simp [shutdown_framework, this]

/-- Witness for `shutdown_framework_spec`: a container that never leaves
the `running` state makes `shutdown_framework` time out after 10 polls,
force a stop/remove, and return false; one that is already `exited` at the
first poll yields true after a single poll. -/
theorem shutdown_framework_spec_witness :
    shutdown_framework (fun _ => some "running") 10 =
      (false, DockerCall.sendShutdown :: pollTrace 0 10 ++
        [DockerCall.stopC 10, DockerCall.removeC]) ∧
    shutdown_framework (fun _ => some "exited") 10 =
      (true, DockerCall.sendShutdown ::
        (pollTrace 0 0 ++ [DockerCall.inspect 0])) :=
  ⟨(shutdown_framework_spec (fun _ => some "running") 10).1 (by decide),
   (shutdown_framework_spec (fun _ => some "exited") 10).2 0 (by decide)
     (by decide) (by intro j hj; omega)⟩

/-- C8: when no container with the given name exists, the lookup raises
`NotFound` and `stop_container_if_exists` returns false having performed
no runtime call beyond the existence check; when the container exists and
stop/remove succeed, it is stopped with the bounded configured timeout
(default 5) and removed, and true is returned; any failure other than
`NotFound` — in the lookup, the stop or the remove — is fatal. -/
theorem stop_container_if_exists_spec :
    ∀ (stopRes removeRes : Except DErr Unit) (cfg : Option Nat),
      stop_container_if_exists (Except.error DErr.notFound) stopRes removeRes cfg =
        (Except.ok false, [DockerCall.getContainer]) ∧
      stop_container_if_exists (Except.ok ()) (Except.ok ()) (Except.ok ()) cfg =
        (Except.ok true,
          [DockerCall.getContainer, DockerCall.stopC (cfg.getD 5), DockerCall.removeC]) ∧
      (stop_container_if_exists (Except.error DErr.other) stopRes removeRes cfg).1 =
        Except.error () ∧
      (stop_container_if_exists (Except.ok ()) (Except.error DErr.other) removeRes cfg).1 =
        Except.error () ∧
      (stop_container_if_exists (Except.ok ()) (Except.ok ())
        (Except.error DErr.other) cfg).1 = Except.error () :=
  fun _ _ _ => ⟨rfl, rfl, rfl, rfl, rfl⟩

theorem waitReadyGo_skip (status : Nat → Option String) (health : Nat → Bool)
    (timeout interval : Nat) :
    ∀ (k fuel elapsed i : Nat),
      (∀ j, j < k → status (i + j) = some "running" ∧ health (i + j) = false) →
      (∀ j, j < k → elapsed + j * interval < timeout) →
      waitReadyGo status health timeout interval (fuel + k) elapsed i =
        waitReadyGo status health timeout interval fuel (elapsed + k * interval) (i + k) := by
  intro k
  induction k with
  | zero => intro fuel elapsed i _ _; simp
  | succ k ih =>
    intro fuel elapsed i hpoll htime
    have h0 := hpoll 0 (by omega)
    have ht0 : elapsed < timeout := by simpa using htime 0 (by omega)
    have hstep :
        waitReadyGo status health timeout interval (fuel + (k + 1)) elapsed i =
          waitReadyGo status health timeout interval (fuel + k) (elapsed + interval) (i + 1) := by
      have hs : status i = some "running" := by simpa using h0.1
      have hh : health i = false := by simpa using h0.2
      show waitReadyGo status health timeout interval ((fuel + k) + 1) elapsed i = _
      simp [waitReadyGo, ht0, hs, hh]
    rw [hstep, ih (fuel) (elapsed + interval) (i + 1)
      (by intro j hj; simpa [Nat.add_assoc, Nat.add_comm 1 j] using hpoll (j + 1) (by omega))
      (by intro j hj
          have := htime (j + 1) (by omega)
          simpa [Nat.add_mul, Nat.add_assoc, Nat.add_comm interval (j * interval)] using this)]
    have e1 : elapsed + interval + k * interval = elapsed + (k + 1) * interval := by ring
    have e2 : i + 1 + k = i + (k + 1) := by omega
    rw [e1, e2]

theorem waitReady_false_of_never_healthy (status : Nat → Option String)
    (health : Nat → Bool) (timeout interval : Nat)
    (hh : ∀ j, health j = false) :
    ∀ (fuel elapsed i : Nat),
      (waitReadyGo status health timeout interval fuel elapsed i).1 = false := by
  intro fuel
  induction fuel with
  | zero => intro elapsed i; simp [waitReadyGo]
  | succ f ih =>
    intro elapsed i
    by_cases ht : elapsed < timeout
    · cases hs : status i with
      | none => simp [waitReadyGo, ht, hs, ih]
      | some s =>
        by_cases hr : s = "running"
        · subst hr; simp [waitReadyGo, ht, hs, hh i, ih]
        · simp [waitReadyGo, ht, hs, hr]
    · simp [waitReadyGo, ht]

/-- C7: provided the polling interval is at least one second, the
readiness wait (a) returns false at poll `k` — having performed exactly
`k + 1` polls — as soon as that poll reports a status other than
`running`, (b) returns true at poll `k` upon the first non-empty response
from the in-container health request, and (c) returns false — it is a
total function and raises nothing — whenever the probe response stays
empty through the whole timeout; with `timeout = 5`, `interval = 1` and an
always-empty probe it returns false after exactly 5 polling attempts. -/
theorem wait_for_container_ready_spec (status : Nat → Option String)
    (health : Nat → Bool) (timeout interval : Nat) (hint : 1 ≤ interval) :
    (∀ k, k * interval < timeout →
      (∀ j, j < k → status j = some "running" ∧ health j = false) →
      (∀ s, status k = some s → s ≠ "running" →
        wait_for_container_ready status health timeout interval = (false, k + 1)) ∧
      (status k = some "running" → health k = true →
        wait_for_container_ready status health timeout interval = (true, k + 1))) ∧
    ((∀ j, health j = false) →
      (wait_for_container_ready status health timeout interval).1 = false) ∧
    wait_for_container_ready (fun _ => some "running") (fun _ => false) 5 1 =
      (false, 5) := by
  refine ⟨?_, ?_, by decide⟩
  · intro k hkt hbefore
    have hk_le : k ≤ timeout := by
      have : k ≤ k * interval := Nat.le_mul_of_pos_right k (by omega)
      omega
    obtain ⟨f, hf⟩ : ∃ f, timeout + 1 - k = f + 1 := ⟨timeout - k, by omega⟩
    have hsplit : timeout + 1 = (f + 1) + k := by omega
    have hskip :
        wait_for_container_ready status health timeout interval =
          waitReadyGo status health timeout interval (f + 1) (k * interval) k := by
      unfold wait_for_container_ready
      rw [hsplit, waitReadyGo_skip status health timeout interval k (f + 1) 0 0
        (by intro j hj; simpa using hbefore j hj)
        (by intro j hj
            have hji : j * interval ≤ k * interval :=
              Nat.mul_le_mul_right interval (by omega)
            omega)]
      simp
    constructor
    · intro s hs hsr
      have hbeq : (s == "running") = false := by
        simpa using hsr
      rw [hskip]
      simp [waitReadyGo, hkt, hs, hbeq]
    · intro hs hhk
      rw [hskip]
      simp [waitReadyGo, hkt, hs, hhk]
  · intro hh
    exact waitReady_false_of_never_healthy status health timeout interval hh _ _ _

/-- Witness for `wait_for_container_ready_spec`: with a 1-second interval,
a container already `exited` at the first poll makes the wait fail after
one poll, and a healthy response at the first poll makes it succeed. -/
theorem wait_for_container_ready_spec_witness :
    wait_for_container_ready (fun _ => some "exited") (fun _ => false) 5 1 =
      (false, 1) ∧
    wait_for_container_ready (fun _ => some "running") (fun _ => true) 5 1 =
      (true, 1) :=
  ⟨((wait_for_container_ready_spec (fun _ => some "exited") (fun _ => false) 5 1
      (by omega)).1 0 (by omega) (by intro j hj; omega)).1 "exited" rfl (by decide),
   ((wait_for_container_ready_spec (fun _ => some "running") (fun _ => true) 5 1
      (by omega)).1 0 (by omega) (by intro j hj; omega)).2 rfl rfl⟩

/-- C2: whenever the readiness check returns false, `run_container` stops
and removes the just-started container before raising the fatal startup
failure — the stop and remove calls precede the fatal exit in the trace —
and the container's final state is `none` (removed), so it is never left
in the `running` state on the failure path. -/
theorem run_container_no_leak (status : Nat → Option String)
    (health : Nat → Bool) (timeout interval stopTimeout : Nat)
    (h : (wait_for_container_ready status health timeout interval).1 = false) :
    run_container status health timeout interval stopTimeout =
      (Except.error (), none,
        [DockerCall.runC, DockerCall.stopC stopTimeout, DockerCall.removeC,
          DockerCall.fatalExit]) ∧
    (run_container status health timeout interval stopTimeout).2.1 ≠
      some "running" := by
  refine ⟨?_, ?_⟩ <;> simp [run_container, h]

/-- Witness for `run_container_no_leak`: a container that exits right
away fails readiness, and `run_container` removes it before the fatal
exit. -/
theorem run_container_no_leak_witness :
    run_container (fun _ => some "exited") (fun _ => false) 5 1 10 =
      (Except.error (), none,
        [DockerCall.runC, DockerCall.stopC 10, DockerCall.removeC,
          DockerCall.fatalExit]) ∧
    (run_container (fun _ => some "exited") (fun _ => false) 5 1 10).2.1 ≠
      some "running" :=
  run_container_no_leak (fun _ => some "exited") (fun _ => false) 5 1 10
    (by decide)

/-- C10: in quick mode with a non-empty configured test list exactly the
first test is selected; every other mode selects all configured tests in
their configured order. -/
theorem get_tests_for_mode_spec {α : Type} :
    (∀ (t : α) (rest : List α), get_tests_for_mode (t :: rest) Mode.quick = [t]) ∧
    (∀ tests : List α,
      get_tests_for_mode tests Mode.profile = tests ∧
      get_tests_for_mode tests Mode.energy = tests ∧
      get_tests_for_mode tests Mode.standard = tests) := by
  refine ⟨fun t rest => rfl, fun tests => ?_⟩
  cases tests <;> exact ⟨rfl, rfl, rfl⟩

theorem RunnersWrkMgr.fallbackSearch_some (fs : String → String → Bool) (skip : String) :
    ∀ (ds : List String) (d f : String),
      fallbackSearch fs skip ds = some (d, f) →
      f = "basic.lua" ∧ d ≠ skip ∧ fs d "basic.lua" = true := by
  intro ds
  induction ds with
  | nil => intro d f h; simp [fallbackSearch] at h
  | cons d' ds ih =>
    intro d f h
    by_cases h1 : d' = skip
    · exact ih d f (by simpa [fallbackSearch, h1] using h)
    · by_cases h2 : fs d' "basic.lua"
      · have := h
        simp only [fallbackSearch, if_neg h1, if_pos h2, Option.some.injEq,
          Prod.mk.injEq] at this
        exact ⟨this.2.symm, this.1 ▸ h1, this.1 ▸ h2⟩
      · exact ih d f (by simpa [fallbackSearch, h1, h2] using h)

/-- C9 counterexample: the claimed chain ends with another mode's default
script before failing, but the resolver used by the main profiler
(`WrkManager.get_script_path`) fails without ever trying another mode's
directory: with only `wrk/standard/basic.lua` on disk, resolving script
"foo" for profile mode raises `FileNotFoundError` (`none`) although the
claimed chain would return `wrk/standard/basic.lua`; the
src/runners/wrk_runner.py resolver even fails without trying any default
script. -/
theorem get_script_path_no_cross_mode_fallback :
    WrkMgr.get_script_path fsOnlyStandardBasic "foo" Mode.profile = none ∧
    WrkRunner.get_wrk_script_path (fun _ => true) fsOnlyStandardBasic "foo"
      Mode.profile = none ∧
    SpecModel.specFallbackChain fsOnlyStandardBasic "foo" Mode.profile =
      some ("standard", "basic.lua") := by
  refine ⟨by decide, by decide, by decide⟩

/-- C9 amended: only the benchmark runner's resolver
(src/runners/wrk_manager.py) implements the full documented chain — exact
name, name plus extension, the mode's `basic.lua`, another mode's
`basic.lua` with a warning, then failure; the main
`WrkManager.get_script_path` truncates the chain after the mode's own
`basic.lua` (then fails), and the src/runners/wrk_runner.py resolver fails
directly after the name-plus-extension step.  Whenever the cross-mode
warning is raised, the resolved script is `basic.lua` from a directory
other than the current mode's. -/
theorem wrk_script_resolution_chains (fs : String → String → Bool)
    (script_name : String) (mode : Mode) :
    (RunnersWrkMgr.get_wrk_script_path fs script_name mode).path =
      SpecModel.specFallbackChain fs script_name mode ∧
    WrkMgr.get_script_path fs script_name mode =
      (let dir := modeDir mode
        if fs dir script_name then some (dir, script_name)
        else if !endsWithLua script_name && fs dir (script_name ++ ".lua") then
          some (dir, script_name ++ ".lua")
        else if fs dir "basic.lua" then some (dir, "basic.lua")
        else none) ∧
    (∀ dirOf : String → Bool,
      WrkRunner.get_wrk_script_path dirOf fs script_name mode =
        (let dir := modeDir mode
          if !dirOf dir then none
          else if fs dir script_name then some (dir, script_name)
          else if !endsWithLua script_name && fs dir (script_name ++ ".lua") then
            some (dir, script_name ++ ".lua")
          else none)) ∧
    ((RunnersWrkMgr.get_wrk_script_path fs script_name mode).warnedCross = true →
      ∃ d, (RunnersWrkMgr.get_wrk_script_path fs script_name mode).path =
        some (d, "basic.lua") ∧ d ≠ modeDir mode) := by
  refine ⟨?_, rfl, fun _ => rfl, ?_⟩
  · unfold RunnersWrkMgr.get_wrk_script_path SpecModel.specFallbackChain
    by_cases h1 : fs (modeDir mode) script_name <;>
      by_cases h2 : (!endsWithLua script_name &&
        fs (modeDir mode) (script_name ++ ".lua")) = true <;>
      by_cases h3 : fs (modeDir mode) "basic.lua" <;>
      (simp only [h1, h2, h3, Bool.false_eq_true, if_true, if_false];
        try rfl)
    all_goals
      cases hfb : RunnersWrkMgr.fallbackSearch fs (modeDir mode)
        ["profile", "standard", "energy"] <;> simp [hfb]
  · intro hw
    unfold RunnersWrkMgr.get_wrk_script_path at hw ⊢
    by_cases h1 : fs (modeDir mode) script_name
    · simp [h1] at hw
    · by_cases h2 : (!endsWithLua script_name &&
        fs (modeDir mode) (script_name ++ ".lua")) = true
      · simp [h1, h2] at hw
      · by_cases h3 : fs (modeDir mode) "basic.lua"
        · simp [h1, h2, h3] at hw
        · cases hfb : RunnersWrkMgr.fallbackSearch fs (modeDir mode)
            ["profile", "standard", "energy"] with
          | none => simp [h1, h2, h3, hfb] at hw
          | some p =>
            obtain ⟨d, f⟩ := p
            obtain ⟨hf, hd, _⟩ :=
              RunnersWrkMgr.fallbackSearch_some fs (modeDir mode) _ d f hfb
            subst hf
            exact ⟨d, by simp [h1, h2, h3, hfb], hd⟩

/-- Witness for `wrk_script_resolution_chains`: with only
`wrk/standard/basic.lua` present and profile mode requested, the
benchmark runner's resolver returns the cross-mode default with the
warning, matching the documented chain. -/
theorem wrk_script_resolution_chains_witness :
    (RunnersWrkMgr.get_wrk_script_path fsOnlyStandardBasic "foo" Mode.profile).path =
      SpecModel.specFallbackChain fsOnlyStandardBasic "foo" Mode.profile ∧
    ((RunnersWrkMgr.get_wrk_script_path fsOnlyStandardBasic "foo"
        Mode.profile).warnedCross = true →
      ∃ d, (RunnersWrkMgr.get_wrk_script_path fsOnlyStandardBasic "foo"
        Mode.profile).path = some (d, "basic.lua") ∧ d ≠ modeDir Mode.profile) :=
  ⟨(wrk_script_resolution_chains fsOnlyStandardBasic "foo" Mode.profile).1,
   (wrk_script_resolution_chains fsOnlyStandardBasic "foo" Mode.profile).2.2.2⟩

theorem waitForEmissions_none (ex : Nat → Bool) (sz : Nat → Nat) (m : Nat) :
    ∀ (fuel i : Nat), (∀ d, d < fuel → goodAt ex sz (i + d) = false) →
      waitForEmissions ex sz m i fuel =
        (none, (List.range' i fuel).filter (fun j => j % 5 == 0 || j == m - 1),
          fuel) := by
  intro fuel
  induction fuel with
  | zero => intro i _; simp [waitForEmissions]
  | succ f ih =>
    intro i h
    have h0 : goodAt ex sz i = false := by simpa using h 0 (by omega)
    have htail : ∀ d, d < f → goodAt ex sz (i + 1 + d) = false := by
      intro d hd
      have := h (d + 1) (by omega)
      simpa [Nat.add_assoc, Nat.add_comm 1 d] using this
    simp only [waitForEmissions, h0, Bool.false_eq_true, if_false, ih (i + 1) htail]
    simp [List.range'_succ, List.filter_cons]

theorem waitForEmissions_found (ex : Nat → Bool) (sz : Nat → Nat) (m : Nat) :
    ∀ (k fuel i : Nat), k < fuel → goodAt ex sz (i + k) = true →
      (∀ d, d < k → goodAt ex sz (i + d) = false) →
      waitForEmissions ex sz m i fuel =
        (some (i + k),
          (List.range' i k).filter (fun j => j % 5 == 0 || j == m - 1), k) := by
  intro k
  induction k with
  | zero =>
    intro fuel i hf hk _
    obtain ⟨f, rfl⟩ : ∃ f, fuel = f + 1 := ⟨fuel - 1, by omega⟩
    simp only [Nat.add_zero] at hk
    simp [waitForEmissions, hk]
  | succ k ih =>
    intro fuel i hf hk h
    obtain ⟨f, rfl⟩ : ∃ f, fuel = f + 1 := ⟨fuel - 1, by omega⟩
    have h0 : goodAt ex sz i = false := by simpa using h 0 (by omega)
    have hk' : goodAt ex sz (i + 1 + k) = true := by
      simpa [Nat.add_assoc, Nat.add_comm 1 k] using hk
    have htail : ∀ d, d < k → goodAt ex sz (i + 1 + d) = false := by
      intro d hd
      have := h (d + 1) (by omega)
      simpa [Nat.add_assoc, Nat.add_comm 1 d] using this
    simp only [waitForEmissions, h0, Bool.false_eq_true, if_false,
      ih f (i + 1) (by omega) hk' htail]
    simp [List.range'_succ, List.filter_cons, Nat.add_assoc, Nat.add_comm 1 k]

/-- C4: `_save_energy_run_data` polls once per second for up to 30
iterations (the hard-coded default timeout) for the artifact to exist and
to exceed 100 bytes, logging the energy directory contents at every fifth
poll and at the last one while waiting; when at the end the artifact
content is empty or header-only (at most one newline) the run fails —
`savedReport` is false and no measurement report is produced.  The wait
breaks at the first poll `k` at which the artifact exists with size over
100 bytes, having slept `k` seconds; if no poll succeeds it times out
after all 30 polls and 30 sleeps. -/
theorem save_energy_run_data_spec (ex : Nat → Bool) (sz : Nat → Nat)
    (content : String) :
    ((content = "" ∨ newlineCount content ≤ 1) →
      (save_energy_run_data ex sz content).savedReport = false ∧
      (save_energy_run_data ex sz content).report = none) ∧
    ((∀ i, i < 30 → goodAt ex sz i = false) →
      (save_energy_run_data ex sz content).waitBroke = none ∧
      (save_energy_run_data ex sz content).sleeps = 30 ∧
      (save_energy_run_data ex sz content).dirLogs =
        (List.range 30).filter (fun j => j % 5 == 0 || j == 29)) ∧
    (∀ k, k < 30 → goodAt ex sz k = true →
      (∀ d, d < k → goodAt ex sz d = false) →
      (save_energy_run_data ex sz content).waitBroke = some k ∧
      (save_energy_run_data ex sz content).sleeps = k ∧
      (save_energy_run_data ex sz content).dirLogs =
        (List.range k).filter (fun j => j % 5 == 0 || j == 29)) := by
  refine ⟨?_, ?_, ?_⟩
  · intro hc
    unfold save_energy_run_data
    rw [if_pos hc]
    exact ⟨rfl, rfl⟩
  · intro h
    have hw := waitForEmissions_none ex sz 30 30 0 (by intro d hd; simpa using h d hd)
    rw [List.range_eq_range']
    unfold save_energy_run_data
    rw [hw]
    by_cases hc : content = "" ∨ newlineCount content ≤ 1 <;>
      simp [hc]
  · intro k hk hgood hbefore
    have hw := waitForEmissions_found ex sz 30 k 30 0 hk (by simpa using hgood)
      (by intro d hd; simpa using hbefore d hd)
    rw [List.range_eq_range']
    unfold save_energy_run_data
    rw [hw]
    by_cases hc : content = "" ∨ newlineCount content ≤ 1 <;>
      simp [hc]

/-- Witness for `save_energy_run_data_spec` (Scenario E of the spec): an
artifact stuck at 40 bytes never satisfies the size check, the wait times
out after 30 polls, and the header-only content yields no report. -/
theorem save_energy_run_data_spec_witness :
    (save_energy_run_data (fun _ => true) (fun _ => 40) "header-row").savedReport =
      false ∧
    (save_energy_run_data (fun _ => true) (fun _ => 40) "header-row").report =
      none ∧
    (save_energy_run_data (fun _ => true) (fun _ => 40) "header-row").waitBroke =
      none ∧
    (save_energy_run_data (fun _ => true) (fun _ => 40) "header-row").sleeps = 30 :=
  ⟨((save_energy_run_data_spec (fun _ => true) (fun _ => 40) "header-row").1
      (by right; decide)).1,
   ((save_energy_run_data_spec (fun _ => true) (fun _ => 40) "header-row").1
      (by right; decide)).2,
   ((save_energy_run_data_spec (fun _ => true) (fun _ => 40) "header-row").2.1
      (fun i _ => rfl)).1,
   ((save_energy_run_data_spec (fun _ => true) (fun _ => 40) "header-row").2.1
      (fun i _ => rfl)).2.1⟩

theorem listMin_le (l : List ℚ) : ∀ a ∈ l, listMin l ≤ a := by
  induction l with
  | nil => intro a ha; cases ha
  | cons x xs ih =>
    intro a ha
    cases xs with
    | nil =>
      rcases List.mem_singleton.mp ha with rfl
      exact le_refl _
    | cons y t =>
      rcases List.mem_cons.mp ha with rfl | ha'
      · exact min_le_left _ _
      · exact le_trans (min_le_right _ _) (ih a ha')

theorem le_listMax (l : List ℚ) : ∀ a ∈ l, a ≤ listMax l := by
  induction l with
  | nil => intro a ha; cases ha
  | cons x xs ih =>
    intro a ha
    cases xs with
    | nil =>
      rcases List.mem_singleton.mp ha with rfl
      exact le_refl _
    | cons y t =>
      rcases List.mem_cons.mp ha with rfl | ha'
      · exact le_max_left _ _
      · exact le_trans (ih a ha') (le_max_right _ _)

theorem listMin_le_npMean (l : List ℚ) (h : l ≠ []) : listMin l ≤ npMean l := by
  have hlen : (0 : ℚ) < l.length := by
    have := List.length_pos.mpr h
    exact_mod_cast this
  have hsum : l.length • listMin l ≤ l.sum :=
    List.card_nsmul_le_sum l (listMin l) (listMin_le l)
  rw [nsmul_eq_mul] at hsum
  rw [npMean, le_div_iff₀ hlen]
  linarith

theorem npMean_le_listMax (l : List ℚ) (h : l ≠ []) : npMean l ≤ listMax l := by
  have hlen : (0 : ℚ) < l.length := by
    have := List.length_pos.mpr h
    exact_mod_cast this
  have hsum : l.sum ≤ l.length • listMax l :=
    List.sum_le_card_nsmul l (listMax l) (le_listMax l)
  rw [nsmul_eq_mul] at hsum
  rw [npMean, div_le_iff₀ hlen]
  linarith

theorem mem_insertSorted (x : ℚ) :
    ∀ (l : List ℚ) (a : ℚ), a ∈ insertSorted x l ↔ a = x ∨ a ∈ l := by
  intro l
  induction l with
  | nil => intro a; simp [insertSorted]
  | cons y ys ih =>
    intro a
    by_cases hxy : x ≤ y
    · simp [insertSorted, hxy, List.mem_cons]
    · simp only [insertSorted, if_neg hxy, List.mem_cons, ih a]
      tauto

theorem mem_sortQ (l : List ℚ) (a : ℚ) : a ∈ sortQ l ↔ a ∈ l := by
  induction l with
  | nil => simp [sortQ]
  | cons x xs ih =>
    simp only [sortQ, mem_insertSorted, ih, List.mem_cons]

theorem length_insertSorted (x : ℚ) :
    ∀ l : List ℚ, (insertSorted x l).length = l.length + 1 := by
  intro l
  induction l with
  | nil => rfl
  | cons y ys ih =>
    by_cases hxy : x ≤ y
    · simp [insertSorted, hxy]
    · simp [insertSorted, hxy, ih]

theorem length_sortQ (l : List ℚ) : (sortQ l).length = l.length := by
  induction l with
  | nil => rfl
  | cons x xs ih => simp [sortQ, length_insertSorted, ih]

theorem npMedian_bounds (l : List ℚ) (h : l ≠ []) :
    listMin l ≤ npMedian l ∧ npMedian l ≤ listMax l := by
  have hlen : 0 < (sortQ l).length := by
    rw [length_sortQ]
    exact List.length_pos.mpr h
  have hget : ∀ i, i < (sortQ l).length →
      listMin l ≤ (sortQ l).getD i 0 ∧ (sortQ l).getD i 0 ≤ listMax l := by
    intro i hi
    rw [List.getD_eq_getElem _ _ hi]
    have hmem : (sortQ l)[i] ∈ l := (mem_sortQ l _).mp (List.getElem_mem hi)
    exact ⟨listMin_le l _ hmem, le_listMax l _ hmem⟩
  unfold npMedian
  by_cases hodd : (sortQ l).length % 2 = 1
  · rw [if_pos hodd]
    exact hget _ (by omega)
  · rw [if_neg hodd]
    have h2 : 2 ≤ (sortQ l).length := by omega
    have hi1 := hget ((sortQ l).length / 2 - 1) (by omega)
    have hi2 := hget ((sortQ l).length / 2) (by omega)
    constructor
    · have := hi1.1; have := hi2.1; linarith
    · have := hi1.2; have := hi2.2; linarith

theorem npMean_of_const (l : List ℚ) (c : ℚ) (hc : ∀ x ∈ l, x = c)
    (h : l ≠ []) : npMean l = c := by
  have hlen : (0 : ℚ) < l.length := by
    have := List.length_pos.mpr h
    exact_mod_cast this
  have hsum : l.sum = l.length • c := List.sum_eq_card_nsmul l c hc
  rw [npMean, hsum, nsmul_eq_mul]
  field_simp

theorem npVariance_of_const (l : List ℚ) (c : ℚ) (hc : ∀ x ∈ l, x = c)
    (h : l ≠ []) : npVariance l = 0 := by
  have hmean := npMean_of_const l c hc h
  have hzero : (l.map (fun x => (x - npMean l) ^ 2)).sum = 0 := by
    refine List.sum_eq_zero ?_
    intro y hy
    rcases List.mem_map.mp hy with ⟨x, hx, rfl⟩
    rw [hc x hx, hmean]
    ring
  rw [npVariance, hzero, zero_div]

theorem lookup_filterMap_of_not_mem (g : String → Option MetricStat) (k : String) :
    ∀ keys : List String, k ∉ keys →
      (keys.filterMap (fun j => (g j).map (fun s => (j, s)))).lookup k = none := by
  intro keys
  induction keys with
  | nil => intro _; rfl
  | cons k' ks ih =>
    intro hk
    have hkk' : ¬k = k' := fun hh => hk (hh ▸ List.mem_cons_self k' ks)
    have hks : k ∉ ks := fun hh => hk (List.mem_cons_of_mem _ hh)
    cases hg : g k' with
    | none => simpa [List.filterMap_cons, hg] using ih hks
    | some s =>
      have hbeq : (k == k') = false := by simpa using hkk'
      simp only [List.filterMap_cons, hg, Option.map_some', List.lookup_cons, hbeq]
      exact ih hks

theorem lookup_filterMap (g : String → Option MetricStat) (k : String) :
    ∀ keys : List String, keys.Nodup → k ∈ keys →
      (keys.filterMap (fun j => (g j).map (fun s => (j, s)))).lookup k = g k := by
  intro keys
  induction keys with
  | nil => intro _ hk; cases hk
  | cons k' ks ih =>
    intro hnd hk
    have hnd' := List.nodup_cons.mp hnd
    by_cases hkk' : k = k'
    · subst hkk'
      cases hg : g k with
      | none =>
        simp only [List.filterMap_cons, hg]
        exact lookup_filterMap_of_not_mem g k ks hnd'.1
      | some s =>
        simp only [List.filterMap_cons, hg, Option.map_some', List.lookup_cons,
          beq_self_eq_true]
    · have hks : k ∈ ks := by
        rcases List.mem_cons.mp hk with h | h
        · exact absurd h hkk'
        · exact h
      cases hg : g k' with
      | none => simpa [List.filterMap_cons, hg] using ih hnd'.2 hks
      | some s =>
        have hbeq : (k == k') = false := by simpa using hkk'
        simp only [List.filterMap_cons, hg, Option.map_some', List.lookup_cons, hbeq]
        exact ih hnd'.2 hks

/-- Lookup in a section's statistics list is exactly the per-key optional
statistics entry (for keys in the section) and `none` otherwise. -/
theorem sectionStats_lookup (runs : List RunReport)
    (proj : RunReport → List (String × ℚ)) (k : String) :
    (sectionStats runs proj).lookup k =
      if k ∈ sectionKeys runs proj then statOpt runs proj k else none := by
  by_cases hk : k ∈ sectionKeys runs proj
  · rw [if_pos hk]
    exact lookup_filterMap _ k _ (List.nodup_dedup _) hk
  · rw [if_neg hk]
    exact lookup_filterMap_of_not_mem _ k _ hk

theorem metricValues_length (runs : List RunReport)
    (proj : RunReport → List (String × ℚ)) (key : String)
    (h : ∀ r ∈ runs, ∃ v, (proj r).lookup key = some v) :
    (metricValues runs proj key).length = runs.length := by
  induction runs with
  | nil => rfl
  | cons r rs ih =>
    obtain ⟨v, hv⟩ := h r (List.mem_cons_self r rs)
    have := ih (fun r' hr' => h r' (List.mem_cons_of_mem r hr'))
    simp [metricValues, List.filterMap_cons, hv] at this ⊢
    exact this

theorem mem_keys_of_lookup (k : String) (v : ℚ) :
    ∀ al : List (String × ℚ), al.lookup k = some v → k ∈ al.map Prod.fst := by
  intro al
  induction al with
  | nil => intro h; cases h
  | cons p ps ih =>
    intro h
    obtain ⟨k', v'⟩ := p
    rw [List.lookup_cons] at h
    cases hbeq : k == k' with
    | true =>
      have : k = k' := by simpa using hbeq
      simp [this]
    | false =>
      rw [hbeq] at h
      exact List.mem_cons_of_mem _ (ih h)

theorem collectFrom_all_some (files : Nat → Option RunReport) (rep : Nat → RunReport) :
    ∀ (n i : Nat), (∀ j, i ≤ j → j < i + n → files j = some (rep j)) →
      collectFrom files i n = some ((List.range' i n).map rep) := by
  intro n
  induction n with
  | zero => intro i _; rfl
  | succ m ih =>
    intro i h
    have h0 : files i = some (rep i) := h i (le_refl i) (by omega)
    simp only [collectFrom, h0]
    rw [ih (i + 1) (fun j hj1 hj2 => h j (by omega) (by omega))]
    simp [List.range'_succ]

theorem collectFrom_missing (files : Nat → Option RunReport) :
    ∀ (n i j : Nat), i ≤ j → j < i + n → files j = none →
      collectFrom files i n = none := by
  intro n
  induction n with
  | zero => intro i j h1 h2 _; omega
  | succ m ih =>
    intro i j h1 h2 hj
    cases hfi : files i with
    | none => simp [collectFrom, hfi]
    | some r =>
      have hij : i ≠ j := by
        intro he
        rw [he, hj] at hfi
        cases hfi
      simp only [collectFrom, hfi]
      rw [ih (i + 1) j (by omega) (by omega) hj]
      rfl

/-- C6: aggregation over zero runs is fatal, aggregation with a missing
runs directory is fatal, and aggregation where any expected run's report
file is missing is fatal — no partial aggregate is ever produced. -/
theorem combine_energy_runs_fatal_spec (files : Nat → Option RunReport)
    (num_runs : Nat) :
    (∀ dirOk, combine_energy_runs dirOk files 0 = Except.error ()) ∧
    combine_energy_runs false files num_runs = Except.error () ∧
    (∀ i, 1 ≤ i → i ≤ num_runs → files i = none →
      combine_energy_runs true files num_runs = Except.error ()) := by
  refine ⟨?_, rfl, ?_⟩
  · intro dirOk; cases dirOk <;> rfl
  · intro i h1 h2 hi
    have hc := collectFrom_missing files num_runs 1 i h1 (by omega) hi
    simp [combine_energy_runs, hc]

/-- Witness for `combine_energy_runs_fatal_spec`: with every report file
missing, aggregating one expected run is fatal. -/
theorem combine_energy_runs_fatal_spec_witness :
    combine_energy_runs true (fun _ => none) 1 = Except.error () :=
  (combine_energy_runs_fatal_spec (fun _ => none) 1).2.2 1 (le_refl 1)
    (le_refl 1) rfl

theorem sectionStats_lookup_none (runs : List RunReport)
    (proj : RunReport → List (String × ℚ)) (key : String)
    (h : ∀ r ∈ runs, (proj r).lookup key = none) :
    (sectionStats runs proj).lookup key = none := by
  rw [sectionStats_lookup]
  have hmv : metricValues runs proj key = [] :=
    List.filterMap_eq_nil_iff.mpr h
  have hso : statOpt runs proj key = none := by
    unfold statOpt
    rw [hmv]
    rfl
  rw [hso, ite_self]

theorem sectionStats_lookup_statFor (runs : List RunReport)
    (proj : RunReport → List (String × ℚ)) (key : String)
    (hku : key ≠ "units") (hne : runs ≠ [])
    (hkey : ∀ r ∈ runs, ∃ v, (proj r).lookup key = some v) :
    (sectionStats runs proj).lookup key =
      some (statFor (metricValues runs proj key)) := by
  have hvslen := metricValues_length runs proj key hkey
  have hvsne : metricValues runs proj key ≠ [] := by
    intro h0
    rw [h0] at hvslen
    exact hne (List.length_eq_zero.mp hvslen.symm)
  obtain ⟨r0, rest, rfl⟩ : ∃ r0 rest, runs = r0 :: rest := by
    cases runs with
    | nil => exact absurd rfl hne
    | cons a l => exact ⟨a, l, rfl⟩
  have hr0 : r0 ∈ r0 :: rest := List.mem_cons_self r0 rest
  obtain ⟨v, hv⟩ := hkey r0 hr0
  have hmemkey : key ∈ sectionKeys (r0 :: rest) proj := by
    unfold sectionKeys
    rw [List.mem_dedup, List.mem_filter]
    refine ⟨List.mem_flatMap.mpr ⟨r0, hr0, mem_keys_of_lookup key v _ hv⟩, ?_⟩
    simp only [bne_iff_ne, ne_eq]
    simpa using hku
  rw [sectionStats_lookup, if_pos hmemkey]
  unfold statOpt
  rw [if_neg (by simpa [List.isEmpty_iff] using hvsne)]

/-- C5: over `n ≥ 1` reports, aggregation succeeds, and every metric
`key` of any of the three sections (energy, emissions, duration) —
present in every run's copy of that section, and, because the source
writes energy, then emissions, then duration statistics into one shared
dict with later writes overwriting earlier ones, not shadowed by a
section processed later — gets a statistics record whose ordered value
list holds the per-run values in run order with length exactly `n`, with
`min ≤ mean ≤ max` and the median within `[min, max]`, and whose
coefficient of variation is `stddev / mean * 100`, is 0 when the mean is
0, and is 0 whenever all runs report the same value.  In the reports
`generate_energy_report` produces, the three sections have disjoint key
sets, so the shadowing hypotheses hold for every metric of every
section. -/
theorem combine_energy_runs_statistics (files : Nat → Option RunReport)
    (rep : Nat → RunReport) (n : Nat) (sec : ReportSection) (key : String)
    (hn : 1 ≤ n)
    (hf : ∀ i, 1 ≤ i → i ≤ n → files i = some (rep i))
    (hkey : ∀ r ∈ (List.range' 1 n).map rep,
      ∃ v, (sectionProj sec r).lookup key = some v)
    (hku : key ≠ "units")
    (hdur : sec ≠ ReportSection.duration →
      ∀ r ∈ (List.range' 1 n).map rep, (r.duration).lookup key = none)
    (hemi : sec = ReportSection.energy →
      ∀ r ∈ (List.range' 1 n).map rep, (r.emissions).lookup key = none) :
    ∃ cs st, combine_energy_runs true files n = Except.ok cs ∧
      cs.runs = n ∧
      cs.statistics key = some st ∧
      st.values = metricValues ((List.range' 1 n).map rep) (sectionProj sec) key ∧
      st.values.length = n ∧
      st.min ≤ st.mean ∧ st.mean ≤ st.max ∧
      st.min ≤ st.median ∧ st.median ≤ st.max ∧
      (st.mean = 0 → st.cov = 0) ∧
      (0 < st.mean → st.cov = st.stddev / (st.mean : ℝ) * 100) ∧
      (∀ c : ℚ, (∀ v ∈ st.values, v = c) → st.cov = 0) := by
  obtain ⟨m, rfl⟩ : ∃ m, n = m + 1 := ⟨n - 1, by omega⟩
  have hcollect : collectFrom files 1 (m + 1) =
      some ((List.range' 1 (m + 1)).map rep) :=
    collectFrom_all_some files rep (m + 1) 1
      (fun j hj1 hj2 => hf j hj1 (by omega))
  have hcomb : combine_energy_runs true files (m + 1) =
      Except.ok
        { runs := ((List.range' 1 (m + 1)).map rep).length
          framework := (rep 1).framework
          language := (rep 1).language
          statistics := fun k =>
            ((sectionStats ((List.range' 1 (m + 1)).map rep)
                (fun r => r.duration)).lookup k <|>
              (sectionStats ((List.range' 1 (m + 1)).map rep)
                (fun r => r.emissions)).lookup k) <|>
              (sectionStats ((List.range' 1 (m + 1)).map rep)
                (fun r => r.energy)).lookup k } := by
    unfold combine_energy_runs
    rw [hcollect]
    rfl
  have hlenL : ((List.range' 1 (m + 1)).map rep).length = m + 1 := by simp
  have hLne : (List.range' 1 (m + 1)).map rep ≠ [] := by
    intro h
    rw [h] at hlenL
    cases hlenL
  have hvslen :
      (metricValues ((List.range' 1 (m + 1)).map rep) (sectionProj sec)
        key).length = m + 1 := by
    rw [metricValues_length _ _ _ hkey, hlenL]
  have hvsne :
      metricValues ((List.range' 1 (m + 1)).map rep) (sectionProj sec) key ≠
        [] := by
    intro h
    rw [h] at hvslen
    cases hvslen
  have hsec := sectionStats_lookup_statFor ((List.range' 1 (m + 1)).map rep)
    (sectionProj sec) key hku hLne hkey
  have hstat :
      (((sectionStats ((List.range' 1 (m + 1)).map rep)
          (fun r => r.duration)).lookup key <|>
        (sectionStats ((List.range' 1 (m + 1)).map rep)
          (fun r => r.emissions)).lookup key) <|>
        (sectionStats ((List.range' 1 (m + 1)).map rep)
          (fun r => r.energy)).lookup key) =
      some (statFor (metricValues ((List.range' 1 (m + 1)).map rep)
        (sectionProj sec) key)) := by
    cases sec with
    | duration =>
      simp only [sectionProj] at hsec ⊢
      rw [hsec]
      rfl
    | emissions =>
      have h1 := sectionStats_lookup_none ((List.range' 1 (m + 1)).map rep)
        (fun r => r.duration) key (hdur (fun h => nomatch h))
      simp only [sectionProj] at hsec ⊢
      rw [h1, hsec]
      rfl
    | energy =>
      have h1 := sectionStats_lookup_none ((List.range' 1 (m + 1)).map rep)
        (fun r => r.duration) key (hdur (fun h => nomatch h))
      have h2 := sectionStats_lookup_none ((List.range' 1 (m + 1)).map rep)
        (fun r => r.emissions) key (hemi rfl)
      simp only [sectionProj] at hsec ⊢
      rw [h1, h2, hsec]
      rfl
  refine ⟨_, statFor (metricValues ((List.range' 1 (m + 1)).map rep)
    (sectionProj sec) key), hcomb, hlenL, ?_, rfl, hvslen,
    ?_, ?_, ?_, ?_, ?_, ?_, ?_⟩
  · show (((sectionStats _ (fun r => r.duration)).lookup key <|>
      (sectionStats _ (fun r => r.emissions)).lookup key) <|>
      (sectionStats _ (fun r => r.energy)).lookup key) = _
    exact hstat
  · exact listMin_le_npMean _ hvsne
  · exact npMean_le_listMax _ hvsne
  · exact (npMedian_bounds _ hvsne).1
  · exact (npMedian_bounds _ hvsne).2
  · intro hmean
    unfold MetricStat.cov
    have h0 : ¬(0 : ℚ) < (statFor (metricValues ((List.range' 1 (m + 1)).map rep)
        (sectionProj sec) key)).mean := by
      rw [hmean]
      exact lt_irrefl 0
    rw [if_neg h0]
  · intro hmean
    unfold MetricStat.cov
    rw [if_pos (by simpa [statFor] using hmean)]
  · intro c hc
    have hvar : npVariance (metricValues ((List.range' 1 (m + 1)).map rep)
        (sectionProj sec) key) = 0 :=
      npVariance_of_const _ c (by simpa [statFor] using hc) hvsne
    unfold MetricStat.cov MetricStat.stddev
    by_cases hmean : (0 : ℚ) < (statFor (metricValues
        ((List.range' 1 (m + 1)).map rep) (sectionProj sec) key)).mean
    · rw [if_pos hmean]
      have : ((statFor (metricValues ((List.range' 1 (m + 1)).map rep)
          (sectionProj sec) key)).variance : ℝ) = 0 := by
        simp [statFor, hvar]
      rw [this, Real.sqrt_zero, zero_div, zero_mul]
    · rw [if_neg hmean]

/-- Witness for `combine_energy_runs_statistics`: two identical reports
carrying `total_Wh` in the energy section, `mgCO2e` in the emissions
section and `duration_s` in the duration section; the emissions metric
`mgCO2e` aggregates to a value list of length 2 with degenerate
statistics. -/
theorem combine_energy_runs_statistics_witness :
    ∃ cs st,
      combine_energy_runs true
        (fun _ => some ⟨"flask", "python", [("total_Wh", 1)], [("mgCO2e", 5)],
          [("duration_s", 2)]⟩) 2 = Except.ok cs ∧
      cs.runs = 2 ∧
      cs.statistics "mgCO2e" = some st ∧
      st.values = metricValues
        ((List.range' 1 2).map
          (fun _ => ⟨"flask", "python", [("total_Wh", 1)], [("mgCO2e", 5)],
            [("duration_s", 2)]⟩))
        (sectionProj ReportSection.emissions) "mgCO2e" ∧
      st.values.length = 2 ∧
      st.min ≤ st.mean ∧ st.mean ≤ st.max ∧
      st.min ≤ st.median ∧ st.median ≤ st.max ∧
      (st.mean = 0 → st.cov = 0) ∧
      (0 < st.mean → st.cov = st.stddev / (st.mean : ℝ) * 100) ∧
      (∀ c : ℚ, (∀ v ∈ st.values, v = c) → st.cov = 0) :=
  combine_energy_runs_statistics
    (fun _ => some ⟨"flask", "python", [("total_Wh", 1)], [("mgCO2e", 5)],
      [("duration_s", 2)]⟩)
    (fun _ => ⟨"flask", "python", [("total_Wh", 1)], [("mgCO2e", 5)],
      [("duration_s", 2)]⟩) 2 ReportSection.emissions "mgCO2e"
    (by omega) (fun i _ _ => rfl)
    (by
      intro r hr
      simp only [List.mem_map] at hr
      obtain ⟨i, _, rfl⟩ := hr
      exact ⟨5, rfl⟩)
    (by decide)
    (fun _ => by
      intro r hr
      simp only [List.mem_map] at hr
      obtain ⟨i, _, rfl⟩ := hr
      rfl)
    (fun h => nomatch h)

end RgProfiler
